import Mathlib

/-!
# Verification of the wizardry rule compiler (`wizardry/wizcompiler/compiler.go`)

The Go source is a code generator: `Compile` walks a forest of rule trees and
emits, per page, a matcher function over a byte buffer.  The generated code is
straight-line Go with forward `goto` jumps to per-node failure labels, reading
through a fixed family of bounds-checked read primitives and mutating a fixed
set of scratch registers (`gf`, `ra/ka`, `rb/kb`, `rc/kc`, `rA`, `d0`..`df`).

This development shallow-embeds
  * the data model consumed by the compiler (`Rule`, `Offset`, `Kind`, ... —
    these live in the out-of-src `wizparser` package, so their shape is taken
    from the spec's §3 data model and from the field accesses in
    `compiler.go`),
  * the generated read primitives (`f1l` .. `f8b`, compiler.go:114-136),
  * the semantics of the code emitted for one rule node
    (`emitNode`, compiler.go:176-460) as an interpreter `evalNode` over an
    explicit register state, and
  * the tree builder `treeify` (compiler.go:506-529).

Conventions:
  * Go `int64` values are modelled as `Int` and `uint64` values as `Nat`.
    The conversions that change meaning (`uint64 -> int64`, `uint64 -> intN`
    sign truncation, two's-complement `&`) are modelled exactly, with explicit
    reduction mod `2^64` / `2^(8*w)`.  Plain `int64` address arithmetic is
    modelled as exact `Int` arithmetic: wrap-around at `2^63` is not modelled,
    and every concrete input used below stays far inside the `int64` range.
  * A Go runtime panic (negative slice index, etc.) and a compile-time
    `panic(...)` in `Compile` are both modelled as a `panic` result carrying
    the message; they are distinct from the ordinary "failure" control flow,
    which the generated code handles by a forward jump.
  * The external collaborators (`wizardry.StringTest`, `wizardry.SearchTest`,
    and the entry points of other pages invoked by `use` rules) are not under
    `src/`; they are modelled from the spec as an abstract `Exts` record of
    functions with the spec's calling contract (signed position result,
    negative meaning no match).
  * Each read performed by the generated code is also logged in the state
    (`reads` field); this instrumentation only records which bounds-checked
    reads execute and affects nothing else.
-/

/-! ## Data model (wizparser types, modelled from spec §3 and their uses in compiler.go) -/

/-- Byte order of a multi-byte read (spec §3, `wizparser.Endianness`). -/
inductive Endianness where
  | little
  | big
deriving DecidableEq

/-- Modelled from the spec: the swapped compilation variant reverses the byte
order of every multi-byte read (`Endianness.MaybeSwapped`, used by
`endiannessString`, compiler.go:495-500). -/
def Endianness.maybeSwapped (e : Endianness) (swap : Bool) : Endianness :=
  if swap then (match e with | .little => .big | .big => .little) else e

/-- The byte order actually used for a read in the (possibly swapped)
compilation variant (`endiannessString`, compiler.go:495-500). -/
def endiannessSel (e : Endianness) (swap : Bool) : Endianness :=
  e.maybeSwapped swap

/-- Arithmetic adjustment selector (spec §3: none/add/sub/mul/div;
`wizparser.AdjustmentAdd` etc., matched at compiler.go:248-273 and 332-341). -/
inductive Adjustment where
  | noAdj
  | add
  | sub
  | mul
  | divA
deriving DecidableEq

/-- Comparison operator of an integer rule (spec §3: {eq, ne, lt, gt};
`wizparser.IntegerTestEqual` etc., compiler.go:313-322). -/
inductive IntegerTest where
  | eq
  | ne
  | lt
  | gt
deriving DecidableEq

/-- Indirect part of an offset (spec §3 "Indirect": width, endianness, address,
relativity, and adjustment; fields as accessed at compiler.go:218-281). -/
structure IndirectOffset where
  byteWidth : Nat
  endianness : Endianness
  offsetAddress : Int
  isRelative : Bool
  offsetAdjustmentType : Adjustment
  offsetAdjustmentValue : Int
  offsetAdjustmentIsRelative : Bool
deriving DecidableEq

/-- Which addressing mode an offset uses (`wizparser.OffsetTypeDirect` /
`OffsetTypeIndirect`, compiler.go:204-282). -/
inductive OffsetType where
  | direct
  | indirect
deriving DecidableEq

/-- Addressing mode of a rule (spec §3 "Offset"; fields as accessed in
compiler.go:189-282).  Modelled from the spec: `Offset.Equals` (used for read
reuse, compiler.go:201 and 294) is structural equality of all fields, which is
the derived decidable equality of this structure. -/
structure Offset where
  offsetType : OffsetType
  isRelative : Bool
  direct : Int
  indirect : IndirectOffset
deriving DecidableEq

/-- Integer-kind payload (spec §3 "Integer"; fields as accessed at
compiler.go:288-356). `andValue` is a Go `uint64`, `adjustmentValue` and
`value` are Go `int64`. -/
structure IntegerKind where
  byteWidth : Nat
  endianness : Endianness
  integerTest : IntegerTest
  doAnd : Bool
  andValue : Nat
  adjustmentType : Adjustment
  adjustmentValue : Int
  value : Int
  matchAny : Bool
deriving DecidableEq

/-- String-kind payload (spec §3 "String"; fields as accessed at
compiler.go:357-373). -/
structure StringKind where
  value : List Nat
  negate : Bool
  flags : Nat
deriving DecidableEq

/-- Search-kind payload (spec §3 "Search"; fields as accessed at
compiler.go:375-391). -/
structure SearchKind where
  value : List Nat
  maxLen : Nat
deriving DecidableEq

/-- Use-kind payload (spec §3 "Use"; fields as accessed at
compiler.go:393-396). -/
structure UseKind where
  page : String
  swapEndian : Bool
deriving DecidableEq

/-- Discriminated kind union (spec §3 "Kind"; the Go `Kind.Family` switch at
compiler.go:286-424 rendered as a sum type, as spec §9 suggests). -/
inductive Kind where
  | integer (ik : IntegerKind)
  | str (sk : StringKind)
  | search (sk : SearchKind)
  | use (uk : UseKind)
  | name
  | clear
  | defaultK
deriving DecidableEq

/-- One rule line (spec §3 "Rule"; fields as accessed in compiler.go). -/
structure Rule where
  level : Nat
  offset : Offset
  kind : Kind
  description : String
  line : String
deriving DecidableEq

/-- A rule plus its ordered children (`ruleNode`, compiler.go:19-23; the
sequential `id` only names the per-node failure label, which is structural
here, so it is not carried). -/
inductive ruleNode where
  | mk (rule : Rule) (children : List ruleNode)

def ruleNode.rule : ruleNode → Rule
  | .mk r _ => r

def ruleNode.children : ruleNode → List ruleNode
  | .mk _ cs => cs

/-! ## Machine-integer conversions -/

/-- Reduce an unsigned 64-bit quantity (`uint64`). -/
def toU64 (i : Int) : Nat := (i % (2 ^ 64 : Int)).toNat

/-- Reinterpret the low 64 bits of a `Nat` as a Go `int64`. -/
def toSigned64 (n : Nat) : Int :=
  let m : Nat := n % 2 ^ 64
  if m < 2 ^ 63 then (m : Int) else (m : Int) - 2 ^ 64

/-- Go's `i8(iW(v))` for `v : uint64`: truncate to the low `8*w` bits and
sign-extend to `int64` (the conversion chain emitted at compiler.go:325). -/
def signExtW (w : Nat) (v : Nat) : Int :=
  let m : Nat := v % 2 ^ (8 * w)
  if m < 2 ^ (8 * w - 1) then (m : Int) else (m : Int) - 2 ^ (8 * w)

/-- Two's-complement `&` on Go `int64` values. -/
def land64 (a b : Int) : Int := toSigned64 (Nat.land (toU64 a) (toU64 b))

/-! ## Read primitives (compiler.go:114-136)

The generator emits, for each width `w ∈ {1,2,4,8}` and endianness, a function

    func fW{l,b}(tb []byte, off i8) (u8, bool) {
      if i8(len(tb)) < off+W { return 0, false }
      return u8(...decode...), true
    }

`fread` is that family, parameterized by width and endianness.  Note the
bounds check does not test `off >= 0`: when `off < 0` passes the length check,
the slice access `tb[off]` / `tb[off:]` is a Go runtime panic, modelled as the
`panic` result. -/

/-- Little-endian value of a byte list (least significant byte first);
`binary.LittleEndian.UintN`. -/
def decodeLE : List Nat → Nat
  | [] => 0
  | b :: rest => b + 256 * decodeLE rest

/-- Decode per byte order (`binary.BigEndian.UintN` is the reverse order). -/
def decodeBytes (en : Endianness) (bs : List Nat) : Nat :=
  match en with
  | .little => decodeLE bs
  | .big => decodeLE bs.reverse

/-- Result of one generated read primitive: either the Go `(value, ok)` pair,
or a runtime panic. -/
inductive ReadRes where
  | panicked (msg : String)
  | val (v : Nat) (ok : Bool)
deriving DecidableEq

/-- The generated read primitive `fW{l,b}` (compiler.go:114-136). -/
def fread (w : Nat) (en : Endianness) (tb : List Nat) (off : Int) : ReadRes :=
  if (tb.length : Int) < off + w then .val 0 false
  else if off < 0 then .panicked "runtime error: slice bounds out of range"
  else .val (decodeBytes en ((tb.drop off.toNat).take w)) true

/-! ## Matcher state and external collaborators -/

/-- Modelled from the spec (§6 External interfaces): the runtime collaborators
of the generated code, which are not under `src/`.
`gt` is `wizardry.StringTest(tb, off, pattern, flags)` and `ht` is
`wizardry.SearchTest(tb, off, maxLen, pattern)`; both return a signed
position/length, negative meaning no match (spec §4.4/§6).  `identify` stands
for the generated entry points of other pages invoked by `use` rules
(compiler.go:393-396), keyed by page name and the use-kind's swap flag. -/
structure Exts where
  gt : List Nat → Int → List Nat → Nat → Int
  ht : List Nat → Int → Nat → List Nat → Int
  identify : String → Bool → List Nat → Int → List String

/-- The scratch registers of one generated matcher invocation
(compiler.go:152-165): output labels `out`, global offset `gf`, indirect-read
registers `ra/ka` and `rb/kb`, integer-read registers `rc/kc`, string/search
position `rA`, and the default markers `d0..df` (modelled as a total map from
the marker index).  `reads` logs each `fN` read the generated code performs
(width, offset); it is instrumentation only. -/
structure MState where
  out : List String
  gf : Int
  ra : Nat
  ka : Bool
  rb : Nat
  kb : Bool
  rc : Nat
  kc : Bool
  rA : Int
  dm : Nat → Bool
  reads : List (Nat × Int)

/-- State at entry of a generated `Identify*` function (compiler.go:152-165):
all registers zero/false. -/
def initState : MState :=
  { out := [], gf := 0, ra := 0, ka := false, rb := 0, kb := false,
    rc := 0, kc := false, rA := 0, dm := fun _ => false, reads := [] }

/-- Update one default marker. -/
def updMarker (f : Nat → Bool) (i : Nat) (b : Bool) : Nat → Bool :=
  fun j => if j = i then b else f j

/-- Outcome of running a piece of generated code: normal completion or a
panic. -/
inductive Res (α : Type) where
  | panicked (msg : String)
  | ok (a : α)

/-- Perform the emitted `ra, ka = fWe(tb, addr)` read (compiler.go:227-231). -/
def readRA (w : Nat) (en : Endianness) (tb : List Nat) (addr : Int) (s : MState) :
    Res MState :=
  match fread w en tb addr with
  | .panicked m => .panicked m
  | .val v k => .ok { s with ra := v, ka := k, reads := s.reads ++ [(w, addr)] }

/-- Perform the emitted `rb, kb = fWe(tb, addr)` read (compiler.go:238-241). -/
def readRB (w : Nat) (en : Endianness) (tb : List Nat) (addr : Int) (s : MState) :
    Res MState :=
  match fread w en tb addr with
  | .panicked m => .panicked m
  | .val v k => .ok { s with rb := v, kb := k, reads := s.reads ++ [(w, addr)] }

/-- Perform the emitted `rc, kc = fWe(tb, off)` read (compiler.go:302-308). -/
def readRC (w : Nat) (en : Endianness) (tb : List Nat) (addr : Int) (s : MState) :
    Res MState :=
  match fread w en tb addr with
  | .panicked m => .panicked m
  | .val v k => .ok { s with rc := v, kc := k, reads := s.reads ++ [(w, addr)] }

/-! ## Offset resolution (compiler.go:196-284) -/

/-- Result of resolving a node's offset: panic, jump to the node's failure
label (carrying the state at the jump), or continue with the resolved
address. -/
inductive StepRes where
  | panicked (msg : String)
  | failJump (s : MState)
  | cont (s : MState) (off : Int)

/-- Combine `i8(ra)` with the configured adjustment and relativity
(compiler.go:246-282).  Division is Go `int64` division (truncation toward
zero); a zero divisor, which would be a Go runtime panic, does not occur in
any development below. -/
def finishIndirect (rule : Rule) (s : MState) (adjVal : Int) : Int :=
  let base := toSigned64 s.ra
  let adjusted :=
    match rule.offset.indirect.offsetAdjustmentType with
    | .noAdj => base
    | .add => base + adjVal
    | .sub => base - adjVal
    | .mul => base * adjVal
    | .divA => Int.tdiv base adjVal
  if rule.offset.isRelative then adjusted + s.gf else adjusted

/-- Resolve the address a node tests at (`off`, compiler.go:196-284).
For a direct offset this is `po + literal (+ gf)`; for an indirect offset the
emitted code reads the pointer into `ra/ka` (unless the previous sibling used
a structurally equal offset, compiler.go:198-201 and 226-231), jumps to the
failure label if the read failed, optionally performs the adjustment read into
`rb/kb`, and combines.  The emitted offset expression is folded and then
evaluated over registers that do not change before its uses inside the node,
so it is evaluated to its `Int` value here. -/
def resolveOffset (swap : Bool) (tb : List Nat) (po : Int) (rule : Rule)
    (reuseOffset : Bool) (s : MState) : StepRes :=
  match rule.offset.offsetType with
  | .direct =>
    let base := po + rule.offset.direct
    .cont s (if rule.offset.isRelative then base + s.gf else base)
  | .indirect =>
    let ind := rule.offset.indirect
    let offsetAddress := if ind.isRelative then s.gf + ind.offsetAddress else ind.offsetAddress
    let step1 : Res MState :=
      if reuseOffset then .ok s
      else readRA ind.byteWidth (endiannessSel ind.endianness swap) tb offsetAddress s
    match step1 with
    | .panicked m => .panicked m
    | .ok s1 =>
      if s1.ka then
        if ind.offsetAdjustmentIsRelative then
          match readRB ind.byteWidth (endiannessSel ind.endianness swap) tb
              (offsetAddress + ind.offsetAdjustmentValue) s1 with
          | .panicked m => .panicked m
          | .ok s2 =>
            if s2.kb then .cont s2 (finishIndirect rule s2 (toSigned64 s2.rb))
            else .failJump s2
        else .cont s1 (finishIndirect rule s1 ind.offsetAdjustmentValue)
      else .failJump s1

/-! ## Integer comparison pipeline (compiler.go:310-347)

The emitted comparison is built from the inside out: starting from the read
register `rc` (a `u8`), the generator wraps it with `i8(iW(_))` when the
operator is `<` or `>` (compiler.go:324-326), then with `& andValue`
(compiler.go:328-330), then with the arithmetic adjustment
(compiler.go:332-341), and finally compares against the literal.  So for the
signed operators the emitted expression computes
`adjust(and(i8(iW(rc))))` over `int64`, and for `==`/`!=` everything stays in
`uint64`.  (For the unsigned path the emitted literals are Go constants in a
`uint64` context; the development models the arithmetic with explicit
reduction mod `2^64`, which matches whenever the emitted program compiles.) -/

/-- Signed adjustment arithmetic (Go `int64` operations; `+`/`-`/`*` reduce
mod `2^64` into the signed range). -/
def adjustS (t : Adjustment) (a : Int) (l : Int) : Int :=
  match t with
  | .noAdj => l
  | .add => toSigned64 (toU64 (l + a))
  | .sub => toSigned64 (toU64 (l - a))
  | .mul => toSigned64 (toU64 (l * a))
  | .divA => Int.tdiv l a

/-- Unsigned adjustment arithmetic (Go `uint64` operations, mod `2^64`). -/
def adjustU (t : Adjustment) (a : Int) (l : Nat) : Nat :=
  match t with
  | .noAdj => l
  | .add => toU64 ((l : Int) + a)
  | .sub => toU64 ((l : Int) - a)
  | .mul => toU64 ((l : Int) * a)
  | .divA => l / toU64 a

/-- Left-hand side of the emitted comparison for `<`/`>` (compiler.go:324-341):
first `i8(iW(rc))`, then the optional `& andValue`, then the adjustment, all
over `int64`. -/
def signedLhs (ik : IntegerKind) (rc : Nat) : Int :=
  let l0 := signExtW ik.byteWidth rc
  let l1 := if ik.doAnd then land64 l0 (toSigned64 ik.andValue) else l0
  adjustS ik.adjustmentType ik.adjustmentValue l1

/-- Left-hand side of the emitted comparison for `==`/`!=`
(compiler.go:328-341): the optional `& andValue`, then the adjustment, over
`uint64`. -/
def unsignedLhs (ik : IntegerKind) (rc : Nat) : Nat :=
  let l1 := if ik.doAnd then Nat.land rc ik.andValue else rc
  adjustU ik.adjustmentType ik.adjustmentValue l1

/-- The emitted comparison `(lhs op rhs)` of a non-wildcard integer rule
(compiler.go:310-345), as a function of the read value `rc`. -/
def intTestValue (ik : IntegerKind) (rc : Nat) : Bool :=
  match ik.integerTest with
  | .lt => decide (signedLhs ik rc < ik.value)
  | .gt => decide (signedLhs ik rc > ik.value)
  | .eq => decide ((unsignedLhs ik rc : Int) = ik.value)
  | .ne => decide (¬ ((unsignedLhs ik rc : Int) = ik.value))

/-- Modelled from the claim wording (C2): the value read is transformed by
the bitmask AND first, then the arithmetic adjustment, and only then widened
to signed form when the comparison is `<` or `>`.  This definition exists to
be compared against `intTestValue`, the pipeline the source emits. -/
def claimOrderTest (ik : IntegerKind) (rc : Nat) : Bool :=
  let l2 := unsignedLhs ik rc
  match ik.integerTest with
  | .lt => decide (signExtW ik.byteWidth l2 < ik.value)
  | .gt => decide (signExtW ik.byteWidth l2 > ik.value)
  | .eq => decide ((l2 : Int) = ik.value)
  | .ne => decide (¬ ((l2 : Int) = ik.value))

/-! ## Kind-specific test execution (compiler.go:286-424) -/

/-- Result of a node's kind-specific test: panic, jump to the node's failure
label, or continue. -/
inductive KRes where
  | panicked (msg : String)
  | failJump (s : MState)
  | cont (s : MState)

/-- `gf = off + byteWidth` emitted for integer rules when a child needs the
global offset (compiler.go:349-356). -/
def gfIntUpd (emitGlobalOffset : Bool) (off : Int) (ik : IntegerKind) (s : MState) :
    MState :=
  if emitGlobalOffset then { s with gf := off + ik.byteWidth } else s

/-- Whether the previous sibling's integer read can be reused
(compiler.go:291-300): structurally equal offsets, previous kind in the
integer family, and equal byte width. -/
def reuseSiblingRead (prev : Option Rule) (rule : Rule) (ik : IntegerKind) : Bool :=
  match prev with
  | none => false
  | some pr =>
    if pr.offset = rule.offset then
      match pr.kind with
      | .integer pik => pik.byteWidth == ik.byteWidth
      | _ => false
    else false

/-- Execute the kind-specific test of one node at resolved address `off`
(the `switch rule.Kind.Family` at compiler.go:286-424). -/
def evalKind (E : Exts) (swap : Bool) (tb : List Nat) (rule : Rule)
    (defaultMarker : Option Nat) (emitGlobalOffset : Bool) (prev : Option Rule)
    (off : Int) (s : MState) : KRes :=
  match rule.kind with
  | .integer ik =>
    if ik.matchAny then .cont (gfIntUpd emitGlobalOffset off ik s)
    else
      let step : Res MState :=
        if reuseSiblingRead prev rule ik then .ok s
        else readRC ik.byteWidth (endiannessSel ik.endianness swap) tb off s
      match step with
      | .panicked m => .panicked m
      | .ok s1 =>
        if s1.kc && intTestValue ik s1.rc then .cont (gfIntUpd emitGlobalOffset off ik s1)
        else .failJump s1
  | .str sk =>
    let s1 := { s with rA := E.gt tb off sk.value sk.flags }
    if sk.negate then
      if 0 ≤ s1.rA then .failJump s1
      else .cont (if emitGlobalOffset then { s1 with gf := off + s1.rA } else s1)
    else
      if s1.rA < 0 then .failJump s1
      else .cont (if emitGlobalOffset then { s1 with gf := off + s1.rA } else s1)
  | .search sk =>
    let s1 := { s with rA := E.ht tb off sk.maxLen sk.value }
    if s1.rA < 0 then .failJump s1
    else .cont (if emitGlobalOffset then { s1 with gf := off + s1.rA + sk.value.length } else s1)
  | .use uk =>
    .cont { s with out := s.out ++ E.identify uk.page uk.swapEndian tb off }
  | .name => .cont s
  | .clear =>
    match defaultMarker with
    | none => .panicked "compiler error: nil defaultMarker for clear rule"
    | some i => .cont { s with dm := updMarker s.dm i false }
  | .defaultK =>
    match defaultMarker with
    | none => .panicked "compiler error: nil defaultMarker for default rule"
    | some i =>
      if s.dm i then .failJump s
      else .cont (if emitGlobalOffset then { s with gf := off } else s)

/-- Does this child's offset force the parent to maintain the global offset
(compiler.go:186-194)? -/
def offsetNeedsGf (o : Offset) : Bool :=
  o.isRelative ||
    (match o.offsetType with
     | .indirect => o.indirect.isRelative
     | .direct => false)

def isDefaultKind : Kind → Bool
  | .defaultK => true
  | _ => false

/-! ## Per-node execution (`emitNode`, compiler.go:176-460)

`evalNode` is the run-time meaning of the block of code `emitNode` emits for
one node: resolve the offset, run the kind-specific test (any failure jumps
forward to the node's failure label, which sits after the whole block), append
the description, initialize and thread the child default marker, run the
children (the node itself acts as the first child's previous sibling,
compiler.go:446-450), and finally set the enclosing default marker.  The
returned `Bool` is `true` when control reached the end of the block normally
and `false` when it arrived there via the failure label. -/

mutual

def evalNode (E : Exts) (swap : Bool) (tb : List Nat) (po : Int)
    (node : ruleNode) (defaultMarker : Option Nat) (prevSibling : Option Rule)
    (s0 : MState) : Res (MState × Bool) :=
  match node with
  | .mk rule children =>
    let emitGlobalOffset := children.any fun c => offsetNeedsGf c.rule.offset
    let reuseOffset :=
      match prevSibling with
      | some pr => decide (pr.offset = rule.offset)
      | none => false
    match resolveOffset swap tb po rule reuseOffset s0 with
    | .panicked m => .panicked m
    | .failJump s1 => .ok (s1, false)
    | .cont s1 off =>
      match evalKind E swap tb rule defaultMarker emitGlobalOffset prevSibling off s1 with
      | .panicked m => .panicked m
      | .failJump s2 => .ok (s2, false)
      | .cont s2 =>
        let s3 := if rule.description ≠ "" then { s2 with out := s2.out ++ [rule.description] } else s2
        let childMarker :=
          if children.any (fun c => isDefaultKind c.rule.kind) then some rule.level else none
        let s4 :=
          match childMarker with
          | some i => { s3 with dm := updMarker s3.dm i false }
          | none => s3
        match evalChildren E swap tb po children childMarker rule s4 with
        | .panicked m => .panicked m
        | .ok s5 =>
          let s6 :=
            match defaultMarker with
            | some i => { s5 with dm := updMarker s5.dm i true }
            | none => s5
          .ok (s6, true)

/-- Run a node's children in order, threading the per-child previous sibling
(compiler.go:446-450). -/
def evalChildren (E : Exts) (swap : Bool) (tb : List Nat) (po : Int)
    (cs : List ruleNode) (marker : Option Nat) (prev : Rule) (s : MState) :
    Res MState :=
  match cs with
  | [] => .ok s
  | c :: rest =>
    match evalNode E swap tb po c marker (some prev) s with
    | .panicked m => .panicked m
    | .ok (s', _) => evalChildren E swap tb po rest marker c.rule s'

end

/-- Run the root nodes of a page (compiler.go:462-464: every root is emitted
with an empty default marker and no previous sibling), collecting for each
root whether its block completed normally. -/
def evalRoots (E : Exts) (swap : Bool) (tb : List Nat) (po : Int)
    (ns : List ruleNode) (s : MState) : Res (MState × List Bool) :=
  match ns with
  | [] => .ok (s, [])
  | n :: rest =>
    match evalNode E swap tb po n none none s with
    | .panicked m => .panicked m
    | .ok (s', flag) =>
      match evalRoots E swap tb po rest s' with
      | .panicked m => .panicked m
      | .ok (s'', flags) => .ok (s'', flag :: flags)

/-- A generated page entry point `IdentifyX(tb, po)` (compiler.go:150-468):
run the roots from the zero state and return `(out, nil)` — the only `return`
statement the generator emits is `return out, nil` (compiler.go:466). -/
def evalPage (E : Exts) (swap : Bool) (tb : List Nat) (po : Int)
    (ns : List ruleNode) : Res (List String × Option String) :=
  match evalRoots E swap tb po ns initState with
  | .panicked m => .panicked m
  | .ok (s, _) => .ok (s.out, none)

/-! ## Rule tree builder (`treeify`, compiler.go:506-529)

The Go builder keeps a stack of pointers, `nodeStack`, with the last-seen node
at each level; a rule at level `L > 0` is appended to the children of
`nodeStack[L-1]`, a rule at level 0 to the root list, and the stack is
truncated to length `L` before the new node is pushed.  Functionally, the
stack is the rightmost open path of the forest: the model below keeps that
path as a stack of open `(rule, children-so-far)` entries (deepest first) and
materializes each entry into its parent's children (or the root list) when it
is popped.  Go's index-out-of-range panic on `nodeStack[L-1]` — a rule whose
level exceeds the current stack length — is the `none` result. -/

/-- One open stack entry: the rule and the children attached so far. -/
abbrev OpenNode := Rule × List ruleNode

/-- Close the deepest open node: materialize it and attach it to its parent's
children (or to the root list when it is the only open node). -/
def closeOne : List OpenNode → List ruleNode → List OpenNode × List ruleNode
  | [], roots => ([], roots)
  | (r, cs) :: rest, roots =>
    match rest with
    | [] => ([], roots ++ [.mk r cs])
    | (pr, pcs) :: rest' => ((pr, pcs ++ [.mk r cs]) :: rest', roots)

/-- Close the `k` deepest open nodes (the truncation
`nodeStack = nodeStack[0:rule.Level]`, compiler.go:525). -/
def closeN : Nat → List OpenNode → List ruleNode → List OpenNode × List ruleNode
  | 0, st, roots => (st, roots)
  | k + 1, st, roots =>
    let p := closeOne st roots
    closeN k p.1 p.2

/-- One iteration of the builder loop (compiler.go:511-526).  `none` models
the Go panic when `rule.Level` exceeds the stack length. -/
def treeifyStep (acc : Option (List OpenNode × List ruleNode)) (r : Rule) :
    Option (List OpenNode × List ruleNode) :=
  match acc with
  | none => none
  | some (st, roots) =>
    if r.level ≤ st.length then
      let p := closeN (st.length - r.level) st roots
      some ((r, []) :: p.1, p.2)
    else none

/-- Close every remaining open node after the loop. -/
def closeAll (st : List OpenNode) (roots : List ruleNode) : List ruleNode :=
  (closeN st.length st roots).2

/-- The rule tree builder (`treeify`, compiler.go:506-529). -/
def treeify (rules : List Rule) : Option (List ruleNode) :=
  match rules.foldl treeifyStep (some ([], [])) with
  | none => none
  | some (st, roots) => some (closeAll st roots)

mutual

/-- Depth-first flattening of a node: its rule, then its children's rules. -/
def flattenNode : ruleNode → List Rule
  | .mk r cs => r :: flattenForest cs

/-- Depth-first flattening of a forest, in order. -/
def flattenForest : List ruleNode → List Rule
  | [] => []
  | n :: ns => flattenNode n ++ flattenForest ns

end

/-- The level-adjacency invariant (spec §3): starting from a bound `n` (0 for
a fresh page), each rule's level is at most the bound, and the bound after a
rule at level `l` is `l + 1`. -/
def validFromB : Nat → List Nat → Bool
  | _, [] => true
  | n, l :: ls => decide (l ≤ n) && validFromB (l + 1) ls

/-- A page's level sequence respects the level-adjacency invariant. -/
def ValidLevels (ls : List Nat) : Prop := validFromB 0 ls = true

/-! ## Compile-time default-marker panics (compiler.go:401-415) and marker
naming (compiler.go:162-165, 436-444)

`Compile` itself panics while emitting a `clear` or `default` node whose
enclosing default marker is empty.  `compileMsg` walks a tree exactly as
`emitNode` does — computing each node's child marker and visiting all
children — and returns the first panic message, if any. -/

/-- Lowercase hexadecimal rendering of a level, as Go's `fmt.Sprintf("%x", i)`
produces for the marker names (compiler.go:163 and 439). -/
def hexStr (n : Nat) : String := String.mk (Nat.toDigits 16 n)

/-- The marker variable name allocated for a node's default group:
`fmt.Sprintf("d%x", rule.Level)` (compiler.go:439). -/
def markerName (level : Nat) : String := "d" ++ hexStr level

/-- The sixteen marker variables every generated matcher declares
(compiler.go:162-165). -/
def declaredMarkers : List String := (List.range 16).map markerName

mutual

/-- First compile-time panic message produced while emitting this node and
its subtree (`emitNode`, compiler.go:401-415 for the panics, 436-450 for the
child marker and recursion), or `none` if emission completes. -/
def compileMsg : ruleNode → Option Nat → Option String
  | .mk rule children, defaultMarker =>
    let own : Option String :=
      match rule.kind with
      | .clear =>
        match defaultMarker with
        | none => some "compiler error: nil defaultMarker for clear rule"
        | some _ => none
      | .defaultK =>
        match defaultMarker with
        | none => some "compiler error: nil defaultMarker for default rule"
        | some _ => none
      | _ => none
    match own with
    | some m => some m
    | none =>
      let childMarker :=
        if children.any (fun c => isDefaultKind c.rule.kind) then some rule.level else none
      compileMsgList children childMarker

def compileMsgList : List ruleNode → Option Nat → Option String
  | [], _ => none
  | c :: rest, marker =>
    match compileMsg c marker with
    | some m => some m
    | none => compileMsgList rest marker

end

/-! ## Concrete fixtures shared by the theorems below -/

/-- External collaborators that never match and produce no sub-labels. -/
def extsNone : Exts :=
  { gt := fun _ _ _ _ => -1, ht := fun _ _ _ _ => -1, identify := fun _ _ _ _ => [] }

/-- External collaborators with fixed positive results: `StringTest` consumes 3
bytes, `SearchTest` finds its pattern at position 2, sub-pages yield one
label. -/
def extsPos : Exts :=
  { gt := fun _ _ _ _ => 3, ht := fun _ _ _ _ => 2, identify := fun _ _ _ _ => ["sub"] }

/-- A placeholder indirect payload for direct offsets (never consulted). -/
def noIndirect : IndirectOffset :=
  { byteWidth := 1, endianness := .little, offsetAddress := 0, isRelative := false,
    offsetAdjustmentType := .noAdj, offsetAdjustmentValue := 0,
    offsetAdjustmentIsRelative := false }

/-- A non-relative direct offset. -/
def directOff (v : Int) : Offset :=
  { offsetType := .direct, isRelative := false, direct := v, indirect := noIndirect }

/-- A relative direct offset. -/
def relOff (v : Int) : Offset :=
  { offsetType := .direct, isRelative := true, direct := v, indirect := noIndirect }

/-- A non-relative indirect offset around the given indirect payload. -/
def indOff (ind : IndirectOffset) : Offset :=
  { offsetType := .indirect, isRelative := false, direct := 0, indirect := ind }

/-- A plain little-endian equality test of the given width and expected
value. -/
def eqKind (w : Nat) (value : Int) : IntegerKind :=
  { byteWidth := w, endianness := .little, integerTest := .eq, doAnd := false,
    andValue := 0, adjustmentType := .noAdj, adjustmentValue := 0, value := value,
    matchAny := false }

/-- A match-any (wildcard) integer kind of the given width. -/
def anyKind (w : Nat) : IntegerKind := { eqKind w 0 with matchAny := true }

def mkRule (level : Nat) (off : Offset) (k : Kind) (desc : String) : Rule :=
  { level := level, offset := off, kind := k, description := desc, line := "" }

def leaf (r : Rule) : ruleNode := .mk r []

/-- A childless `default`-kind rule at the given level with the given label. -/
def dLeaf (lvl : Nat) (d : String) : ruleNode := leaf (mkRule lvl (directOff 0) .defaultK d)

/-- A childless `clear`-kind rule at the given level. -/
def cLeaf (lvl : Nat) : ruleNode := leaf (mkRule lvl (directOff 0) .clear "")

/-- Observe one default marker after a run of children. -/
def dmAfter (r : Res MState) (i : Nat) : Option Bool :=
  match r with
  | .panicked _ => none
  | .ok s => some (s.dm i)

/-- Observe the output labels after a run of children. -/
def outAfter (r : Res MState) : Option (List String) :=
  match r with
  | .panicked _ => none
  | .ok s => some s.out

/-! ## C1 -/

/-- C1 claims a read of width W at signed offset `o` into a buffer of length N
succeeds iff `o >= 0 ∧ o + W <= N` and reports no value otherwise.  The
generated primitives check only `i8(len(tb)) < off+W` (compiler.go:121), so a
negative offset that passes the length check reaches the slice access and is
a Go runtime panic rather than a reported failure: `fread 1 little [0,0] (-1)`
panics.  The remaining conjuncts record the behaviour the claim correctly
describes on non-negative offsets: failure reported when `o + W > N`, and the
byte-order-correct decode on success (little- and big-endian). -/
theorem c1_bounds_check_bug :
    fread 1 .little [0, 0] (-1) = .panicked "runtime error: slice bounds out of range" ∧
    fread 4 .little [1, 2, 3] 0 = .val 0 false ∧
    fread 4 .little [0x46, 0x4C, 0x45, 0x7F] 0 = .val 0x7F454C46 true ∧
    fread 4 .big [0x46, 0x4C, 0x45, 0x7F] 0 = .val 0x464C457F true ∧
    fread 1 .big [0x46] 0 = .val 0x46 true := by
  decide

/-! ## C2 -/

/-- The integer kind of the C2 counterexample: a 1-byte signed `<` comparison
against 0, with bitmask AND by 0xFF. -/
def c2ik : IntegerKind :=
  { byteWidth := 1, endianness := .little, integerTest := .lt, doAnd := true,
    andValue := 0xFF, adjustmentType := .noAdj, adjustmentValue := 0, value := 0,
    matchAny := false }

/-- C2 counterexample: the claim orders the transformation "bitmask AND, then
arithmetic adjustment, then widening to signed form" — on the read byte 0x80
with mask 0xFF and test `< 0` that order matches (0x80 & 0xFF = 0x80, widened
to -128 < 0).  The emitted code widens first (compiler.go:324-330), computing
`i8(i1(0x80)) & 0xFF = 128`, so the comparison fails and the generated matcher
produces no label on the buffer `[0x80]`. -/
theorem c2_counterexample :
    claimOrderTest c2ik 0x80 = true ∧
    intTestValue c2ik 0x80 = false ∧
    evalPage extsNone false [0x80] 0 [leaf (mkRule 0 (directOff 0) (.integer c2ik) "neg")]
      = .ok ([], none) := by
  refine ⟨by decide, by decide, ?_⟩
  rfl

/-- C2 as amended: for a non-wildcard integer rule the read value is
transformed by first widening to signed form when the operator is `<` or `>`,
then the bitmask AND, then the arithmetic adjustment — the pipeline
`intTestValue` (compiler.go:310-345) — and the node jumps to its failure
label exactly when the read failed or the comparison failed. -/
theorem c2_amended (E : Exts) (swap : Bool) (tb : List Nat) (po o : Int)
    (ik : IntegerKind) (desc : String) (s : MState)
    (hma : ik.matchAny = false) (hdesc : desc ≠ "") :
    evalNode E swap tb po (leaf (mkRule 0 (directOff o) (.integer ik) desc)) none none s =
      match fread ik.byteWidth (endiannessSel ik.endianness swap) tb (po + o) with
      | .panicked m => .panicked m
      | .val v k =>
        if k && intTestValue ik v then
          .ok ({ s with
                 rc := v, kc := k,
                 reads := s.reads ++ [(ik.byteWidth, po + o)],
                 out := s.out ++ [desc] }, true)
        else
          .ok ({ s with
                 rc := v, kc := k,
                 reads := s.reads ++ [(ik.byteWidth, po + o)] }, false) := by
  simp only [evalNode, leaf, mkRule, directOff, resolveOffset, evalKind, readRC,
    reuseSiblingRead, evalChildren, List.any_nil, hma, Bool.false_eq_true, if_false,
    gfIntUpd]
  cases h : fread ik.byteWidth (endiannessSel ik.endianness swap) tb (po + o) with
  | panicked m => simp [h]
  | val v k =>
    by_cases ht : k = true ∧ intTestValue ik v = true
    · simp [h, ht.1, ht.2, hdesc, gfIntUpd]
    · simp [h, hdesc, Bool.and_eq_true, ht, gfIntUpd]

/-- Witness for `c2_amended` at a concrete input: width-1 equality test of 65
on the buffer `[65]`. -/
theorem c2_amended_witness :
    evalNode extsNone false [65] 0 (leaf (mkRule 0 (directOff 0) (.integer (eqKind 1 65)) "hit"))
        none none initState =
      match fread 1 (endiannessSel .little false) [65] (0 + 0) with
      | .panicked m => .panicked m
      | .val v k =>
        if k && intTestValue (eqKind 1 65) v then
          .ok ({ initState with
                 rc := v, kc := k,
                 reads := initState.reads ++ [(1, 0 + 0)],
                 out := initState.out ++ ["hit"] }, true)
        else
          .ok ({ initState with
                 rc := v, kc := k,
                 reads := initState.reads ++ [(1, 0 + 0)] }, false) :=
  c2_amended extsNone false [65] 0 0 (eqKind 1 65) "hit" initState (by decide)
    (by decide)

/-! ## C3 -/

/-- The C3 buffer and page: under a common parent (a `name` rule at offset
99), a match-any 1-byte wildcard at offset 0 followed by a 1-byte `== 65`
test at the same offset with label "hit". -/
def c3wild : ruleNode := leaf (mkRule 1 (directOff 0) (.integer (anyKind 1)) "")

def c3hit : ruleNode := leaf (mkRule 1 (directOff 0) (.integer (eqKind 1 65)) "hit")

def c3pageA : List ruleNode := [.mk (mkRule 0 (directOff 99) .name "") [c3wild, c3hit]]

def c3pageB : List ruleNode := [.mk (mkRule 0 (directOff 99) .name "") [c3hit]]

/-- C3 claims read reuse between siblings with structurally equal offsets is
behaviour-preserving, in particular when the first sibling is a match-any
wildcard.  But a wildcard emits no read at all (compiler.go:290), while the
reuse test (compiler.go:291-300) only checks offset, integer family and
width — so the second sibling reuses the stale `rc/kc` registers (initially
`kc = false`) and always fails.  On the buffer `[65]`, the page with the
wildcard first produces no labels, while the identical test without the
wildcard sibling (which therefore performs its read) produces "hit". -/
theorem c3_wildcard_reuse_bug :
    evalPage extsNone false [65] 0 c3pageA = .ok ([], none) ∧
    evalPage extsNone false [65] 0 c3pageB = .ok (["hit"], none) := by
  constructor <;> rfl

/-! ## C4 -/

/-- C4 counterexample: in the default group `[default "a", clear, default
"b"]` the claim says the `clear` resets the marker so that `default "b"` can
fire; but every node run under a marker — the `clear` node included — ends
its block with `marker = true` (compiler.go:453-455), so the clear's own
reset (compiler.go:406) is immediately overwritten and "b" never fires: the
page yields only ["a"], and the marker is `true` right after the clear
node's block. -/
theorem c4_clear_counterexample :
    evalPage extsNone false [0] 0
        [.mk (mkRule 0 (directOff 0) .name "") [dLeaf 1 "a", cLeaf 1, dLeaf 1 "b"]]
      = .ok (["a"], none) ∧
    dmAfter (evalChildren extsNone false [0] 0 [dLeaf 1 "a", cLeaf 1] (some 0)
        (mkRule 0 (directOff 0) .name "") initState) 0
      = some true := by
  constructor <;>
    simp [evalPage, evalRoots, evalChildren, evalNode, evalKind, resolveOffset, dLeaf,
      cLeaf, leaf, mkRule, directOff, updMarker, initState, gfIntUpd, offsetNeedsGf,
      isDefaultKind, readRA, readRB, readRC, fread, reuseSiblingRead, ruleNode.rule,
      ruleNode.children, dmAfter]

/-- C4 as amended: among sibling `default`-guarded alternatives under one
marker, exactly the first alternative (whose guard succeeds because the
marker is still unset) contributes its label, and every later alternative in
the group fails once an earlier one has succeeded.  A `clear` rule inside the
group sets the marker to unmatched but — like every node run under a
marker — sets it back to matched at the end of its own block
(compiler.go:453-455), so it does not re-enable later `default`
alternatives in the group. -/
theorem c4_amended (E : Exts) (swap : Bool) (tb : List Nat) (po : Int)
    (lvl : Nat) (d₁ d₂ j₂ j₃ : String) (pr : Rule) (s : MState)
    (hd₁ : d₁ ≠ "") (hm : s.dm lvl = false) :
    outAfter (evalChildren E swap tb po [dLeaf (lvl+1) d₁, dLeaf (lvl+1) j₂, dLeaf (lvl+1) j₃]
        (some lvl) pr s) = some (s.out ++ [d₁]) ∧
    dmAfter (evalChildren E swap tb po [dLeaf (lvl+1) d₁, dLeaf (lvl+1) j₂, dLeaf (lvl+1) j₃]
        (some lvl) pr s) lvl = some true ∧
    outAfter (evalChildren E swap tb po [dLeaf (lvl+1) d₁, cLeaf (lvl+1), dLeaf (lvl+1) d₂]
        (some lvl) pr s) = some (s.out ++ [d₁]) ∧
    dmAfter (evalChildren E swap tb po [dLeaf (lvl+1) d₁, cLeaf (lvl+1), dLeaf (lvl+1) d₂]
        (some lvl) pr s) lvl = some true := by
  refine ⟨?_, ?_, ?_, ?_⟩ <;>
    simp [evalChildren, evalNode, evalKind, resolveOffset, dLeaf, cLeaf, leaf, mkRule,
      directOff, updMarker, gfIntUpd, offsetNeedsGf, isDefaultKind, ruleNode.rule,
      ruleNode.children, outAfter, dmAfter, hd₁, hm]

/-- Witness for `c4_amended` at a concrete default group. -/
theorem c4_amended_witness :
    outAfter (evalChildren extsNone false [0] 0 [dLeaf 1 "a", dLeaf 1 "x", dLeaf 1 "y"]
        (some 0) (mkRule 0 (directOff 0) .name "") initState) = some ["a"] ∧
    dmAfter (evalChildren extsNone false [0] 0 [dLeaf 1 "a", dLeaf 1 "x", dLeaf 1 "y"]
        (some 0) (mkRule 0 (directOff 0) .name "") initState) 0 = some true ∧
    outAfter (evalChildren extsNone false [0] 0 [dLeaf 1 "a", cLeaf 1, dLeaf 1 "b"]
        (some 0) (mkRule 0 (directOff 0) .name "") initState) = some ["a"] ∧
    dmAfter (evalChildren extsNone false [0] 0 [dLeaf 1 "a", cLeaf 1, dLeaf 1 "b"]
        (some 0) (mkRule 0 (directOff 0) .name "") initState) 0 = some true :=
  c4_amended extsNone false [0] 0 0 "a" "b" "x" "y"
    (mkRule 0 (directOff 0) .name "") initState (by decide) rfl

/-! ## C5 -/

/-- A relative child at level 1 (a `name` rule whose direct offset is marked
relative), forcing the parent to maintain the global offset. -/
def relChild : ruleNode := leaf (mkRule 1 (relOff 0) .name "")

/-- Observe the global offset and completion flag after one node. -/
def nodeGf (r : Res (MState × Bool)) : Option (Int × Bool) :=
  match r with
  | .panicked _ => none
  | .ok (s, flag) => some (s.gf, flag)

/-- C5: when a parent has a relative direct child, after the parent's test
succeeds the child's effective base offset (the global offset register `gf`)
equals the parent's resolved address plus the parent's kind-determined width:
`byteWidth` for integer rules — wildcards included — (compiler.go:349-356),
the string primitive's returned length for string rules (compiler.go:366-373),
the search primitive's returned position plus the pattern length for search
rules (compiler.go:380-391); and a `use` rule leaves the global offset
unchanged (compiler.go:393-396 assigns no `gf`). -/
theorem c5_global_offset :
    (∀ (E : Exts) (swap : Bool) (tb : List Nat) (po o : Int) (ik : IntegerKind)
        (s : MState) (v : Nat),
      ik.matchAny = false →
      fread ik.byteWidth (endiannessSel ik.endianness swap) tb (po + o) = .val v true →
      intTestValue ik v = true →
      nodeGf (evalNode E swap tb po (.mk (mkRule 0 (directOff o) (.integer ik) "") [relChild])
          none none s)
        = some ((po + o) + (ik.byteWidth : Int), true)) ∧
    (∀ (E : Exts) (swap : Bool) (tb : List Nat) (po o : Int) (ik : IntegerKind) (s : MState),
      ik.matchAny = true →
      nodeGf (evalNode E swap tb po (.mk (mkRule 0 (directOff o) (.integer ik) "") [relChild])
          none none s)
        = some ((po + o) + (ik.byteWidth : Int), true)) ∧
    (∀ (E : Exts) (swap : Bool) (tb : List Nat) (po o : Int) (sk : StringKind) (s : MState),
      sk.negate = false →
      ¬ E.gt tb (po + o) sk.value sk.flags < 0 →
      nodeGf (evalNode E swap tb po (.mk (mkRule 0 (directOff o) (.str sk) "") [relChild])
          none none s)
        = some ((po + o) + E.gt tb (po + o) sk.value sk.flags, true)) ∧
    (∀ (E : Exts) (swap : Bool) (tb : List Nat) (po o : Int) (sk : SearchKind) (s : MState),
      ¬ E.ht tb (po + o) sk.maxLen sk.value < 0 →
      nodeGf (evalNode E swap tb po (.mk (mkRule 0 (directOff o) (.search sk) "") [relChild])
          none none s)
        = some ((po + o) + E.ht tb (po + o) sk.maxLen sk.value + (sk.value.length : Int), true)) ∧
    (∀ (E : Exts) (swap : Bool) (tb : List Nat) (po o : Int) (uk : UseKind) (s : MState),
      nodeGf (evalNode E swap tb po (.mk (mkRule 0 (directOff o) (.use uk) "") [relChild])
          none none s)
        = some (s.gf, true)) := by
  refine ⟨?_, ?_, ?_, ?_, ?_⟩
  · intro E swap tb po o ik s v hma hread htest
    simp [evalNode, evalChildren, evalKind, resolveOffset, relChild, leaf, mkRule,
      directOff, relOff, gfIntUpd, offsetNeedsGf, isDefaultKind, ruleNode.rule,
      ruleNode.children, nodeGf, readRC, reuseSiblingRead, hma, hread, htest]
  · intro E swap tb po o ik s hma
    simp [evalNode, evalChildren, evalKind, resolveOffset, relChild, leaf, mkRule,
      directOff, relOff, gfIntUpd, offsetNeedsGf, isDefaultKind, ruleNode.rule,
      ruleNode.children, nodeGf, hma]
  · intro E swap tb po o sk s hneg hpos
    simp [evalNode, evalChildren, evalKind, resolveOffset, relChild, leaf, mkRule,
      directOff, relOff, gfIntUpd, offsetNeedsGf, isDefaultKind, ruleNode.rule,
      ruleNode.children, nodeGf, hneg, hpos]
  · intro E swap tb po o sk s hpos
    simp [evalNode, evalChildren, evalKind, resolveOffset, relChild, leaf, mkRule,
      directOff, relOff, gfIntUpd, offsetNeedsGf, isDefaultKind, ruleNode.rule,
      ruleNode.children, nodeGf, hpos]
  · intro E swap tb po o uk s
    simp [evalNode, evalChildren, evalKind, resolveOffset, relChild, leaf, mkRule,
      directOff, relOff, gfIntUpd, offsetNeedsGf, isDefaultKind, ruleNode.rule,
      ruleNode.children, nodeGf]

/-- Witness for `c5_global_offset` at concrete inputs, one per kind. -/
theorem c5_global_offset_witness :
    nodeGf (evalNode extsNone false [65] 0
        (.mk (mkRule 0 (directOff 0) (.integer (eqKind 1 65)) "") [relChild]) none none initState)
      = some (1, true) ∧
    nodeGf (evalNode extsNone false [] 7
        (.mk (mkRule 0 (directOff 3) (.integer (anyKind 4)) "") [relChild]) none none initState)
      = some (14, true) ∧
    nodeGf (evalNode extsPos false [] 0
        (.mk (mkRule 0 (directOff 0) (.str { value := [1], negate := false, flags := 0 }) "")
          [relChild]) none none initState)
      = some (3, true) ∧
    nodeGf (evalNode extsPos false [] 0
        (.mk (mkRule 0 (directOff 0) (.search { value := [1, 2], maxLen := 5 }) "")
          [relChild]) none none initState)
      = some (4, true) ∧
    nodeGf (evalNode extsPos false [] 0
        (.mk (mkRule 0 (directOff 9) (.use { page := "p", swapEndian := false }) "")
          [relChild]) none none initState)
      = some (0, true) :=
  ⟨c5_global_offset.1 extsNone false [65] 0 0 (eqKind 1 65) initState 65 rfl rfl (by decide),
   c5_global_offset.2.1 extsNone false [] 7 3 (anyKind 4) initState rfl,
   c5_global_offset.2.2.1 extsPos false [] 0 0 { value := [1], negate := false, flags := 0 }
     initState rfl (by decide),
   c5_global_offset.2.2.2.1 extsPos false [] 0 0 { value := [1, 2], maxLen := 5 }
     initState (by decide),
   c5_global_offset.2.2.2.2 extsPos false [] 0 9 { page := "p", swapEndian := false } initState⟩

/-! ## C6 -/

/-- Partial flattening of the open-node stack (deepest entry first in the
list): the shallowest open rule comes first in rule order, and each deeper
entry will end up as the last child of the entry above it, hence appears
last. -/
def stackFlatten : List OpenNode → List Rule
  | [] => []
  | (r, cs) :: rest => stackFlatten rest ++ r :: flattenForest cs

theorem flattenForest_append (a b : List ruleNode) :
    flattenForest (a ++ b) = flattenForest a ++ flattenForest b := by
  induction a with
  | nil => simp [flattenForest]
  | cons n ns ih => simp [flattenForest, ih]

theorem closeOne_flatten (st : List OpenNode) (roots : List ruleNode) :
    flattenForest (closeOne st roots).2 ++ stackFlatten (closeOne st roots).1
      = flattenForest roots ++ stackFlatten st := by
  match st with
  | [] => simp [closeOne]
  | [(r, cs)] =>
    simp [closeOne, stackFlatten, flattenForest_append, flattenForest, flattenNode]
  | (r, cs) :: (pr, pcs) :: rest =>
    simp [closeOne, stackFlatten, flattenForest_append, flattenForest, flattenNode]

theorem closeOne_length (st : List OpenNode) (roots : List ruleNode) :
    (closeOne st roots).1.length = st.length - 1 := by
  match st with
  | [] => simp [closeOne]
  | [(r, cs)] => simp [closeOne]
  | (r, cs) :: (pr, pcs) :: rest => simp [closeOne]

theorem closeN_flatten (k : Nat) (st : List OpenNode) (roots : List ruleNode) :
    flattenForest (closeN k st roots).2 ++ stackFlatten (closeN k st roots).1
      = flattenForest roots ++ stackFlatten st := by
  induction k generalizing st roots with
  | zero => simp [closeN]
  | succ k ih =>
    simp only [closeN]
    rw [ih]
    exact closeOne_flatten st roots

theorem closeN_length (k : Nat) (st : List OpenNode) (roots : List ruleNode) :
    (closeN k st roots).1.length = st.length - k := by
  induction k generalizing st roots with
  | zero => simp [closeN]
  | succ k ih =>
    simp only [closeN]
    rw [ih, closeOne_length]
    omega

theorem treeify_fold (rules : List Rule) :
    ∀ (st : List OpenNode) (roots : List ruleNode),
      validFromB st.length (rules.map Rule.level) = true →
      ∃ st' roots',
        rules.foldl treeifyStep (some (st, roots)) = some (st', roots') ∧
        flattenForest roots' ++ stackFlatten st'
          = flattenForest roots ++ stackFlatten st ++ rules := by
  induction rules with
  | nil =>
    intro st roots _
    exact ⟨st, roots, rfl, by simp⟩
  | cons r rest ih =>
    intro st roots h
    simp only [List.map_cons, validFromB, Bool.and_eq_true, decide_eq_true_eq] at h
    obtain ⟨h1, h2⟩ := h
    have hstep : treeifyStep (some (st, roots)) r
        = some ((r, []) :: (closeN (st.length - r.level) st roots).1,
                (closeN (st.length - r.level) st roots).2) := by
      simp [treeifyStep, h1]
    have hlen : ((r, []) :: (closeN (st.length - r.level) st roots).1).length
        = r.level + 1 := by
      simp [closeN_length]
      omega
    obtain ⟨st', roots', hfold, hflat⟩ :=
      ih ((r, []) :: (closeN (st.length - r.level) st roots).1)
        (closeN (st.length - r.level) st roots).2 (by rw [hlen]; exact h2)
    refine ⟨st', roots', ?_, ?_⟩
    · simpa [List.foldl_cons, hstep] using hfold
    · rw [hflat]
      have hc := closeN_flatten (st.length - r.level) st roots
      simp only [stackFlatten, flattenForest, List.append_nil]
      rw [show flattenForest (closeN (st.length - r.level) st roots).2 ++
            (stackFlatten (closeN (st.length - r.level) st roots).1 ++ [r])
          = (flattenForest (closeN (st.length - r.level) st roots).2 ++
            stackFlatten (closeN (st.length - r.level) st roots).1) ++ [r] by
          simp]
      rw [hc]
      simp

/-- C6: for every ordered rule sequence respecting the level-adjacency
invariant (each level at most one more than what the running stack allows),
`treeify` succeeds — each rule is attached as the next child of the last-seen
node one level up, or as the next root — and flattening the resulting forest
depth-first returns exactly the original rule sequence, so source order of
roots and of every children list is preserved. -/
theorem c6_treeify_roundtrip :
    ∀ rules : List Rule, ValidLevels (rules.map Rule.level) →
      ∃ ns, treeify rules = some ns ∧ flattenForest ns = rules := by
  intro rules h
  obtain ⟨st', roots', hfold, hflat⟩ := treeify_fold rules [] [] h
  refine ⟨closeAll st' roots', ?_, ?_⟩
  · simp [treeify, hfold]
  · have hnil : (closeN st'.length st' roots').1 = [] := by
      have hl : (closeN st'.length st' roots').1.length = 0 := by
        rw [closeN_length]
        omega
      exact List.length_eq_zero.mp hl
    have hc := closeN_flatten st'.length st' roots'
    rw [hnil] at hc
    simp only [stackFlatten, List.append_nil] at hc
    calc flattenForest (closeAll st' roots')
        = flattenForest roots' ++ stackFlatten st' := by simpa [closeAll] using hc
      _ = rules := by simpa [stackFlatten, flattenForest] using hflat

/-- A concrete five-rule page with levels `[0, 1, 1, 2, 0]`. -/
def c6rules : List Rule :=
  [mkRule 0 (directOff 0) .name "r0",
   mkRule 1 (directOff 1) .name "r1",
   mkRule 1 (directOff 2) .name "r2",
   mkRule 2 (directOff 3) .name "r3",
   mkRule 0 (directOff 4) .name "r4"]

/-- Witness for `c6_treeify_roundtrip` on the concrete page above. -/
theorem c6_treeify_roundtrip_witness :
    ∃ ns, treeify c6rules = some ns ∧ flattenForest ns = c6rules :=
  c6_treeify_roundtrip c6rules (by rfl)

/-! ## C7 -/

theorem readRA_ok_out (w : Nat) (en : Endianness) (tb : List Nat) (a : Int)
    (s s' : MState) (h : readRA w en tb a s = .ok s') : s'.out = s.out := by
  unfold readRA at h
  split at h
  · cases h
  · cases h
    rfl

theorem readRB_ok_out (w : Nat) (en : Endianness) (tb : List Nat) (a : Int)
    (s s' : MState) (h : readRB w en tb a s = .ok s') : s'.out = s.out := by
  unfold readRB at h
  split at h
  · cases h
  · cases h
    rfl

theorem readRC_ok_out (w : Nat) (en : Endianness) (tb : List Nat) (a : Int)
    (s s' : MState) (h : readRC w en tb a s = .ok s') : s'.out = s.out := by
  unfold readRC at h
  split at h
  · cases h
  · cases h
    rfl

theorem resolveOffset_failJump_out (swap : Bool) (tb : List Nat) (po : Int)
    (rule : Rule) (reuse : Bool) (s s1 : MState)
    (h : resolveOffset swap tb po rule reuse s = .failJump s1) : s1.out = s.out := by
  unfold resolveOffset at h
  cases ho : rule.offset.offsetType
  case direct => simp [ho] at h
  case indirect =>
    simp only [ho] at h
    split at h
    · cases h
    · rename_i s0 heq0
      have hout0 : s0.out = s.out := by
        split at heq0
        · cases heq0
          rfl
        · exact readRA_ok_out _ _ _ _ _ _ heq0
      split at h
      · split at h
        · split at h
          · cases h
          · rename_i s2 heq2
            split at h
            · cases h
            · cases h
              rw [readRB_ok_out _ _ _ _ _ _ heq2, hout0]
        · cases h
      · cases h
        exact hout0

theorem resolveOffset_cont_out (swap : Bool) (tb : List Nat) (po : Int)
    (rule : Rule) (reuse : Bool) (s s1 : MState) (off : Int)
    (h : resolveOffset swap tb po rule reuse s = .cont s1 off) : s1.out = s.out := by
  unfold resolveOffset at h
  cases ho : rule.offset.offsetType
  case direct =>
    simp only [ho] at h
    cases h
    rfl
  case indirect =>
    simp only [ho] at h
    split at h
    · cases h
    · rename_i s0 heq0
      have hout0 : s0.out = s.out := by
        split at heq0
        · cases heq0
          rfl
        · exact readRA_ok_out _ _ _ _ _ _ heq0
      split at h
      · split at h
        · split at h
          · cases h
          · rename_i s2 heq2
            split at h
            · cases h
              rw [readRB_ok_out _ _ _ _ _ _ heq2, hout0]
            · cases h
        · cases h
          exact hout0
      · cases h

theorem evalKind_failJump_out (E : Exts) (swap : Bool) (tb : List Nat) (rule : Rule)
    (marker : Option Nat) (ego : Bool) (prev : Option Rule) (off : Int) (s s2 : MState)
    (h : evalKind E swap tb rule marker ego prev off s = .failJump s2) : s2.out = s.out := by
  unfold evalKind at h
  cases hk : rule.kind
  case integer ik =>
    simp only [hk] at h
    split at h
    · cases h
    · split at h
      · cases h
      · rename_i s1 heq1
        have hout1 : s1.out = s.out := by
          split at heq1
          · cases heq1
            rfl
          · exact readRC_ok_out _ _ _ _ _ _ heq1
        split at h
        · cases h
        · cases h
          exact hout1
  case str sk =>
    simp only [hk] at h
    split at h
    · split at h
      · cases h
        rfl
      · cases h
    · split at h
      · cases h
        rfl
      · cases h
  case search sk =>
    simp only [hk] at h
    split at h
    · cases h
      rfl
    · cases h
  case use uk => simp [hk] at h
  case name => simp [hk] at h
  case clear =>
    simp only [hk] at h
    split at h
    · cases h
    · cases h
  case defaultK =>
    simp only [hk] at h
    split at h
    · cases h
    · split at h
      · cases h
        rfl
      · cases h

theorem evalNode_false_out (E : Exts) (swap : Bool) (tb : List Nat) (po : Int)
    (node : ruleNode) (marker : Option Nat) (prev : Option Rule) (s s' : MState)
    (h : evalNode E swap tb po node marker prev s = .ok (s', false)) : s'.out = s.out := by
  cases node with
  | mk rule children =>
    simp only [evalNode] at h
    split at h
    · cases h
    · rename_i s1 heq1
      cases h
      exact resolveOffset_failJump_out _ _ _ _ _ _ _ heq1
    · rename_i s1 off heq1
      have hout1 : s1.out = s.out := resolveOffset_cont_out _ _ _ _ _ _ _ _ heq1
      split at h
      · cases h
      · rename_i s2 heq2
        cases h
        rw [evalKind_failJump_out _ _ _ _ _ _ _ _ _ _ heq2, hout1]
      · split at h
        · cases h
        · simp at h

theorem evalRoots_allfalse_out (E : Exts) (swap : Bool) (tb : List Nat) (po : Int) :
    ∀ (ns : List ruleNode) (s s' : MState) (flags : List Bool),
      evalRoots E swap tb po ns s = .ok (s', flags) →
      (∀ f ∈ flags, f = false) → s'.out = s.out := by
  intro ns
  induction ns with
  | nil =>
    intro s s' flags h _
    cases h
    rfl
  | cons n rest ih =>
    intro s s' flags h hf
    simp only [evalRoots] at h
    split at h
    · cases h
    · rename_i s1 flag heq1
      split at h
      · cases h
      · rename_i s'' flags' heq2
        cases h
        have hflag : flag = false := hf _ (List.mem_cons_self _ _)
        rw [hflag] at heq1
        have h1 := evalNode_false_out _ _ _ _ _ _ _ _ _ heq1
        have h2 := ih _ _ _ heq2 (fun f hm => hf _ (List.mem_cons_of_mem _ hm))
        rw [h2, h1]

/-- The per-root completion flags of one page run from the zero state. -/
def rootFlags (E : Exts) (swap : Bool) (tb : List Nat) (po : Int) (ns : List ruleNode) :
    Option (List Bool) :=
  match evalRoots E swap tb po ns initState with
  | .panicked _ => none
  | .ok (_, fs) => some fs

/-- C7: whenever a generated page entry point returns, its error component is
`nil` — the only emitted `return` is `return out, nil` (compiler.go:466) —
and when every root's block ends via its failure label (no rule chain
succeeds), the returned label sequence is empty: failure jumps happen before
any label is appended. -/
theorem c7_no_error :
    (∀ (E : Exts) (swap : Bool) (tb : List Nat) (po : Int) (ns : List ruleNode)
        (ls : List String) (e : Option String),
      evalPage E swap tb po ns = .ok (ls, e) → e = none) ∧
    (∀ (E : Exts) (swap : Bool) (tb : List Nat) (po : Int) (ns : List ruleNode)
        (flags : List Bool),
      rootFlags E swap tb po ns = some flags → (∀ f ∈ flags, f = false) →
      evalPage E swap tb po ns = .ok ([], none)) := by
  constructor
  · intro E swap tb po ns ls e h
    unfold evalPage at h
    split at h
    · cases h
    · cases h
      rfl
  · intro E swap tb po ns flags hf hall
    unfold rootFlags at hf
    split at hf
    · cases hf
    · rename_i s' fs heq
      cases hf
      have hout := evalRoots_allfalse_out E swap tb po ns initState _ _ heq hall
      unfold evalPage
      rw [heq]
      simp [hout, initState]

/-- Witness for `c7_no_error`: a one-rule page over a buffer that matches
(error component `nil`), and the same page over a 3-bytes-short buffer where
the read fails (empty labels, no error — spec scenario B). -/
theorem c7_no_error_witness :
    (none : Option String) = none ∧
    evalPage extsNone false [] 0 [leaf (mkRule 0 (directOff 0) (.integer (eqKind 1 65)) "hit")]
      = .ok ([], none) :=
  ⟨c7_no_error.1 extsNone false [65] 0
      [leaf (mkRule 0 (directOff 0) (.integer (eqKind 1 65)) "hit")] ["hit"] none rfl,
   c7_no_error.2 extsNone false [] 0
      [leaf (mkRule 0 (directOff 0) (.integer (eqKind 1 65)) "hit")] [false] rfl
      (by decide)⟩

/-! ## C8 -/

def c8rule1 : Rule := mkRule 0 (directOff 0) .clear "first"

def c8rule2 : Rule := { c8rule1 with description := "second" }

/-- C8 counterexample: compiling a `clear` (or `default`) rule outside any
default-marker scope panics with a fixed message
(`panic("compiler error: nil defaultMarker for clear rule")`,
compiler.go:404 and 412) that carries nothing about the particular rule: two
distinct offending rules produce the identical message, so the abort message
does not identify the offending rule as the claim states. -/
theorem c8_counterexample :
    compileMsg (.mk c8rule1 []) none = compileMsg (.mk c8rule2 []) none ∧
    c8rule1 ≠ c8rule2 := by
  constructor
  · rfl
  · decide

/-- C8 as amended: for every rule of kind `clear` or `default` compiled
outside any default-marker scope (empty enclosing marker), compilation aborts
fatally with the fixed descriptive message naming the offending rule's kind
(compiler.go:401-415); the message does not identify the specific rule. -/
theorem c8_amended (r : Rule) (cs : List ruleNode) :
    (r.kind = .clear → compileMsg (.mk r cs) none
      = some "compiler error: nil defaultMarker for clear rule") ∧
    (r.kind = .defaultK → compileMsg (.mk r cs) none
      = some "compiler error: nil defaultMarker for default rule") := by
  constructor <;> intro hk <;> simp [compileMsg, hk]

/-- Witness for `c8_amended` on concrete clear and default rules. -/
theorem c8_amended_witness :
    compileMsg (.mk (mkRule 0 (directOff 0) .clear "") []) none
      = some "compiler error: nil defaultMarker for clear rule" ∧
    compileMsg (.mk (mkRule 3 (directOff 5) .defaultK "d") []) none
      = some "compiler error: nil defaultMarker for default rule" :=
  ⟨(c8_amended (mkRule 0 (directOff 0) .clear "") []).1 rfl,
   (c8_amended (mkRule 3 (directOff 5) .defaultK "d") []).2 rfl⟩

/-! ## C9 and C10 projections -/

/-- Observe the output labels after one node's block. -/
def nodeOut (r : Res (MState × Bool)) : Option (List String) :=
  match r with
  | .panicked _ => none
  | .ok (s, _) => some s.out

/-- Observe one default marker after one node's block. -/
def nodeDm (r : Res (MState × Bool)) (i : Nat) : Option Bool :=
  match r with
  | .panicked _ => none
  | .ok (s, _) => some (s.dm i)

/-- Observe the log of performed reads after one node's block. -/
def nodeReads (r : Res (MState × Bool)) : Option (List (Nat × Int)) :=
  match r with
  | .panicked _ => none
  | .ok (s, _) => some s.reads

/-! ## C9 -/

/-- C9: every generated matcher declares exactly the sixteen default-marker
variables `d0`..`df` (compiler.go:162-165); the marker allocated for a node's
default group is named by the lowercase hexadecimal rendering of that node's
rule level (compiler.go:439), hence every group whose parent's level is at
most 15 uses one of the sixteen declared markers, and distinct groups under
same-level parents reuse the same marker variable; and the marker is
re-initialized to `false` before each group's children run
(compiler.go:441) — a default child fires even when the marker's slot was
previously set in the state. -/
theorem c9_markers :
    declaredMarkers.length = 16 ∧
    declaredMarkers = ["d0", "d1", "d2", "d3", "d4", "d5", "d6", "d7", "d8", "d9",
      "da", "db", "dc", "dd", "de", "df"] ∧
    (∀ lvl : Nat, lvl ≤ 15 → markerName lvl ∈ declaredMarkers) ∧
    (∀ r₁ r₂ : Rule, r₁.level = r₂.level → markerName r₁.level = markerName r₂.level) ∧
    (∀ (lvl : Nat) (d : String) (E : Exts) (swap : Bool) (tb : List Nat) (po : Int)
        (s : MState), d ≠ "" →
      nodeOut (evalNode E swap tb po
          (.mk (mkRule lvl (directOff 0) .name "") [dLeaf (lvl+1) d]) none none s)
        = some (s.out ++ [d]) ∧
      nodeDm (evalNode E swap tb po
          (.mk (mkRule lvl (directOff 0) .name "") [dLeaf (lvl+1) d]) none none s) lvl
        = some true) := by
  refine ⟨rfl, by rfl, ?_, ?_, ?_⟩
  · intro lvl h
    exact List.mem_map_of_mem markerName (List.mem_range.mpr (by omega))
  · intro r₁ r₂ h
    rw [h]
  · intro lvl d E swap tb po s hd
    constructor <;>
      simp [evalNode, evalChildren, evalKind, resolveOffset, dLeaf, leaf, mkRule,
        directOff, updMarker, gfIntUpd, offsetNeedsGf, isDefaultKind, ruleNode.rule,
        ruleNode.children, nodeOut, nodeDm, hd]

/-- Witness for `c9_markers` at a concrete level, label and state. -/
theorem c9_markers_witness :
    markerName 15 ∈ declaredMarkers ∧
    markerName 7 = markerName 7 ∧
    (nodeOut (evalNode extsNone false [0] 0
        (.mk (mkRule 0 (directOff 0) .name "") [dLeaf 1 "a"]) none none initState)
      = some ["a"] ∧
    nodeDm (evalNode extsNone false [0] 0
        (.mk (mkRule 0 (directOff 0) .name "") [dLeaf 1 "a"]) none none initState) 0
      = some true) :=
  ⟨c9_markers.2.2.1 15 (by decide),
   c9_markers.2.2.2.1 (mkRule 7 (directOff 0) .name "") (mkRule 7 (directOff 1) .clear "x") rfl,
   c9_markers.2.2.2.2 0 "a" extsNone false [0] 0 initState (by decide)⟩

/-! ## C10 -/

/-- C10: a node's first child is compiled with the node itself as its
previous sibling (compiler.go:446-450).  First conjunct: when the first child
is a non-wildcard integer rule whose offset is structurally equal to its
integer parent's and whose width matches, the child performs no fresh read —
the whole two-node run logs exactly the parent's read — and the child's
comparison consumes the parent's read value (compiler.go:291-308).  Second
conjunct: when the first child's indirect offset is structurally equal to the
parent's, the child skips the pointer read as well (compiler.go:198-201,
226-231): the run logs only the parent's single pointer read. -/
theorem c10_first_child_reuse :
    (∀ (E : Exts) (swap : Bool) (tb : List Nat) (po o : Int) (pik ik : IntegerKind)
        (pd cd : String) (s : MState) (v : Nat),
      pik.matchAny = false → ik.matchAny = false → ik.byteWidth = pik.byteWidth →
      pd ≠ "" → cd ≠ "" →
      fread pik.byteWidth (endiannessSel pik.endianness swap) tb (po + o) = .val v true →
      intTestValue pik v = true →
      nodeReads (evalNode E swap tb po
          (.mk (mkRule 0 (directOff o) (.integer pik) pd)
            [leaf (mkRule 1 (directOff o) (.integer ik) cd)]) none none s)
        = some (s.reads ++ [(pik.byteWidth, po + o)]) ∧
      nodeOut (evalNode E swap tb po
          (.mk (mkRule 0 (directOff o) (.integer pik) pd)
            [leaf (mkRule 1 (directOff o) (.integer ik) cd)]) none none s)
        = some (s.out ++ pd :: (if intTestValue ik v then [cd] else []))) ∧
    (∀ (E : Exts) (swap : Bool) (tb : List Nat) (po : Int) (ind : IndirectOffset)
        (w : Nat) (s : MState) (a : Nat),
      ind.isRelative = false → ind.offsetAdjustmentIsRelative = false →
      ind.offsetAdjustmentType = .noAdj →
      fread ind.byteWidth (endiannessSel ind.endianness swap) tb ind.offsetAddress
        = .val a true →
      nodeReads (evalNode E swap tb po
          (.mk (mkRule 0 (indOff ind) (.integer (anyKind w)) "")
            [leaf (mkRule 1 (indOff ind) .name "")]) none none s)
        = some (s.reads ++ [(ind.byteWidth, ind.offsetAddress)])) := by
  constructor
  · intro E swap tb po o pik ik pd cd s v hpa hca hw hpd hcd hread htest
    by_cases hct : intTestValue ik v = true <;>
      constructor <;>
        simp [evalNode, evalChildren, evalKind, resolveOffset, leaf, mkRule, directOff,
          gfIntUpd, offsetNeedsGf, isDefaultKind, ruleNode.rule, ruleNode.children,
          nodeReads, nodeOut, readRC, reuseSiblingRead, hpa, hca, hw, hpd, hcd, hread,
          htest, hct]
  · intro E swap tb po ind w s a hrel hadjrel hadj hread
    simp [evalNode, evalChildren, evalKind, resolveOffset, leaf, mkRule, indOff,
      anyKind, eqKind, gfIntUpd, offsetNeedsGf, isDefaultKind, ruleNode.rule,
      ruleNode.children, nodeReads, readRA, finishIndirect, hrel, hadjrel, hadj, hread]

/-- Witness for `c10_first_child_reuse` at concrete inputs for both
conjuncts. -/
theorem c10_first_child_reuse_witness :
    nodeReads (evalNode extsNone false [65] 0
        (.mk (mkRule 0 (directOff 0) (.integer (eqKind 1 65)) "p")
          [leaf (mkRule 1 (directOff 0) (.integer (eqKind 1 65)) "c")]) none none initState)
      = some [(1, 0)] ∧
    nodeOut (evalNode extsNone false [65] 0
        (.mk (mkRule 0 (directOff 0) (.integer (eqKind 1 65)) "p")
          [leaf (mkRule 1 (directOff 0) (.integer (eqKind 1 65)) "c")]) none none initState)
      = some ["p", "c"] ∧
    nodeReads (evalNode extsNone false [65] 0
        (.mk (mkRule 0 (indOff noIndirect) (.integer (anyKind 1)) "")
          [leaf (mkRule 1 (indOff noIndirect) .name "")]) none none initState)
      = some [(1, 0)] :=
  ⟨((c10_first_child_reuse.1 extsNone false [65] 0 0 (eqKind 1 65) (eqKind 1 65)
      "p" "c" initState 65 rfl rfl rfl (by decide) (by decide) rfl (by decide))).1,
   ((c10_first_child_reuse.1 extsNone false [65] 0 0 (eqKind 1 65) (eqKind 1 65)
      "p" "c" initState 65 rfl rfl rfl (by decide) (by decide) rfl (by decide))).2,
   c10_first_child_reuse.2 extsNone false [65] 0 noIndirect 1 initState 65
     rfl rfl rfl rfl⟩
